import Mathlib

/-!
Verification of the python-vnc service (AiRemoteCoder repository).

This file shallowly embeds the parts of the service that the specification
claims talk about:

* `rfb_encoder.py` — RFB message encoding/decoding (`encode_frame_update`,
  `parse_key_event`, `parse_pointer_event`);
* `vnc_server.py` — input-event demultiplexing (`handle_input_event`);
* `vnc_runner.py` — the streaming message loop and its teardown;
* `input_handler.py` — key-press tracking (`handle_key_event`, `release_all`);
* `screen_capturer.py` — dirty-region merging (`_merge_regions`);
* `gateway_client.py` — HMAC request signing (`create_signature`), nonce
  construction, and the HTTP error behaviour of `poll_commands`,
  `send_event`, `ack_command`, `register_client` and `send_heartbeat`.

Bytes are modelled as `Nat` in the range 0..255, byte strings as `List Nat`,
and Python exceptions as `Option`/`Except` results.
-/

/-! ### Byte helpers -/

/-- Big-endian 4-byte serialisation of a 32-bit word (`struct.pack` with format I or i). -/
def be32 (n : Nat) : List Nat :=
  [n >>> 24 % 256, n >>> 16 % 256, n >>> 8 % 256, n % 256]

/-- Big-endian 8-byte serialisation of a 64-bit word. -/
def be64 (n : Nat) : List Nat :=
  [n >>> 56 % 256, n >>> 48 % 256, n >>> 40 % 256, n >>> 32 % 256,
   n >>> 24 % 256, n >>> 16 % 256, n >>> 8 % 256, n % 256]

/-- Big-endian decoding of a 32-bit word from four bytes (`struct.unpack` with format I). -/
def beWord32 (b0 b1 b2 b3 : Nat) : Nat :=
  b0 * 16777216 + b1 * 65536 + b2 * 256 + b3

/-- Big-endian decoding of a 16-bit word from two bytes (`struct.unpack` with format H). -/
def beWord16 (b0 b1 : Nat) : Nat :=
  b0 * 256 + b1

/-! ### A model of Python `struct.pack`

`struct.pack` first checks that the number of arguments matches the number of
value format codes and raises `struct.error` otherwise; each value is then
range-checked.  `none` models a raised `struct.error`. -/

/-- A value format code of a big-endian `struct.pack` format string. -/
inductive Fmt where
  | u8 : Fmt
  | u16be : Fmt
  | i32be : Fmt
deriving DecidableEq, Repr

/-- Pack a single value under one format code, range-checking as `struct.pack` does. -/
def packOne : Fmt → Int → Option (List Nat)
  | .u8, v => if 0 ≤ v ∧ v < 256 then some [v.toNat] else none
  | .u16be, v => if 0 ≤ v ∧ v < 65536 then some [v.toNat / 256, v.toNat % 256] else none
  | .i32be, v =>
      if -2147483648 ≤ v ∧ v < 2147483648 then some (be32 (v % 4294967296).toNat) else none

/-- Pack a matched list of format codes and values. -/
def packGo : List Fmt → List Int → Option (List Nat)
  | [], [] => some []
  | f :: fs, v :: vs => do
      let b ← packOne f v
      let rest ← packGo fs vs
      some (b ++ rest)
  | _, _ => none

/-- Model of `struct.pack` for big-endian formats: the argument count is
checked against the format first, exactly as CPython raises
`struct.error: pack expected N items` before looking at any value. -/
def structPack (fmts : List Fmt) (args : List Int) : Option (List Nat) :=
  if fmts.length = args.length then packGo fmts args else none

/-! ### rfb_encoder.py -/

/-- Result of `RFBEncoder.parse_key_event`: the dict
`{type: key, down: bool(data[0]), key: unpack_be32(data[4:8])}`. -/
structure KeyEvt where
  down : Bool
  key : Nat
deriving DecidableEq, Repr

/-- `RFBEncoder.parse_key_event(data)`: returns `None` when fewer than 8 bytes
are available; otherwise reads the down flag from byte 0 and the keysym as a
big-endian u32 from bytes 4–7. -/
def parse_key_event (data : List Nat) : Option KeyEvt :=
  if data.length < 8 then none
  else some
    { down := data.getD 0 0 ≠ 0
      key := beWord32 (data.getD 4 0) (data.getD 5 0) (data.getD 6 0) (data.getD 7 0) }

/-- Result of `RFBEncoder.parse_pointer_event`. -/
structure PtrEvt where
  left : Bool
  middle : Bool
  right : Bool
  scrollUp : Bool
  scrollDown : Bool
  x : Nat
  y : Nat
deriving DecidableEq, Repr

/-- `RFBEncoder.parse_pointer_event(data)`: `None` when fewer than 6 bytes;
otherwise the button mask from byte 0 and x, y as big-endian u16 from
bytes 1–4. -/
def parse_pointer_event (data : List Nat) : Option PtrEvt :=
  if data.length < 6 then none
  else
    let mask := data.getD 0 0
    some
      { left := mask.land 1 ≠ 0
        middle := mask.land 2 ≠ 0
        right := mask.land 4 ≠ 0
        scrollUp := mask.land 8 ≠ 0
        scrollDown := mask.land 16 ≠ 0
        x := beWord16 (data.getD 1 0) (data.getD 2 0)
        y := beWord16 (data.getD 3 0) (data.getD 4 0) }

/-- `RFBEncoder.encode_frame_update(frame_data, x, y, width, height, encoding)`.
The Python source writes, in order: `pack(B, 0)`, `pack(B, 0)`, `pack(H, 1)`,
`pack(HHHHH, x, y, width, height)` — a five-slot format given four values —
and `pack(i, encoding)`, then the frame payload (every encoding branch writes
`frame_data` verbatim).  The claim always passes width and height explicitly,
so the Python default arguments are elided.  `none` models the raised
`struct.error`. -/
def encode_frame_update (frameData : List Nat) (x y width height encoding : Int) :
    Option (List Nat) := do
  let b1 ← structPack [.u8] [0]
  let b2 ← structPack [.u8] [0]
  let b3 ← structPack [.u16be] [1]
  let rectHeader ← structPack [.u16be, .u16be, .u16be, .u16be, .u16be] [x, y, width, height]
  let enc ← structPack [.i32be] [encoding]
  some (b1 ++ b2 ++ b3 ++ rectHeader ++ enc ++ frameData)

/-! ### vnc_server.py -/

/-- An input action forwarded from `VNCServer.handle_input_event` to the
`InputHandler` (a decoded key or pointer event). -/
inductive Dispatch where
  | keyEvt (e : KeyEvt) : Dispatch
  | ptrEvt (e : PtrEvt) : Dispatch
deriving DecidableEq, Repr

/-- `VNCServer.handle_input_event(rfb_event)`: reads the message type from
byte 0, then hands `rfb_event[1:]` to the corresponding parser; a parse
result of `None` is silently skipped.  ClientCutText (type 6) is only
logged; unknown types only warn.  The returned list holds the events that
actually reach the input handler. -/
def handle_input_event (rfbEvent : List Nat) : List Dispatch :=
  match rfbEvent with
  | [] => []
  | t :: rest =>
    if t = 4 then
      match parse_key_event rest with
      | some e => [.keyEvt e]
      | none => []
    else if t = 5 then
      match parse_pointer_event rest with
      | some e => [.ptrEvt e]
      | none => []
    else []

/-! ### input_handler.py -/

/-- A pynput key target: either an entry of `Key` (special keys from
`InputHandler.KEY_MAP`) or a character produced by `chr(keysym)`. -/
inductive PKey where
  | esc | tab | printScreen | scrollLock | pause | del | backspace | enter
  | left | up | right | down | pageUp | pageDown | endKey | home
  | f1 | f2 | f3 | f4 | f5 | f6 | f7 | f8 | f9 | f10 | f11 | f12
  | shift | ctrl | alt | cmd
  | ch (c : Nat)
deriving DecidableEq, Repr

/-- `InputHandler.KEY_MAP`, in source order.  The Python dict literal lists
key 65535 twice with the same value (`Key.delete`); the duplicate collapses. -/
def key_map : List (Nat × PKey) :=
  [(65307, .esc), (65289, .tab), (65299, .printScreen), (65300, .scrollLock),
   (65301, .pause), (65535, .del), (65288, .backspace), (65293, .enter),
   (65361, .left), (65362, .up), (65363, .right), (65364, .down),
   (65365, .pageUp), (65366, .pageDown), (65367, .endKey), (65368, .home),
   (65470, .f1), (65471, .f2), (65472, .f3), (65473, .f4), (65474, .f5),
   (65475, .f6), (65476, .f7), (65477, .f8), (65478, .f9), (65479, .f10),
   (65480, .f11), (65481, .f12),
   (65505, .shift), (65506, .shift), (65507, .ctrl), (65508, .ctrl),
   (65513, .alt), (65514, .alt), (65511, .cmd), (65512, .cmd)]

/-- `InputHandler._vnckey_to_pynput`: the special-key map first, then
printable ASCII 32–126 via `chr`, then codepoints above 255 via `chr`.
Python's `chr` raises `ValueError` above 0x10FFFF; every caller catches the
exception and performs no action, which coincides with returning `None`,
so that case is modelled as `none`. -/
def vnckey_to_pynput (k : Nat) : Option PKey :=
  match key_map.lookup k with
  | some p => some p
  | none =>
    if 32 ≤ k ∧ k ≤ 126 then some (.ch k)
    else if 255 < k ∧ k ≤ 1114111 then some (.ch k)
    else none

/-- A physical input action issued through pynput. -/
inductive IAction where
  | press (p : PKey) : IAction
  | release (p : PKey) : IAction
deriving DecidableEq, Repr

/-- `InputHandler.handle_key_event` restricted to its observable effect: the
new pressed-key set and the physical actions issued.  A down event presses
and records the key only when it is not already pressed; an up event
releases and removes it only when it is pressed; an unmapped key does
nothing.  The Python pressed set is modelled as a duplicate-free list. -/
def handle_key_event (pressed : List Nat) (key : Nat) (down : Bool) :
    List Nat × List IAction :=
  match vnckey_to_pynput key with
  | none => (pressed, [])
  | some p =>
    if down then
      if key ∈ pressed then (pressed, [])
      else (key :: pressed, [.press p])
    else
      if key ∈ pressed then (pressed.erase key, [.release p])
      else (pressed, [])

/-- `InputHandler.release_all`: releases every pressed key that still maps to
a pynput key (each per-key exception or `None` mapping merely skips that
release) and clears the set. -/
def release_all (pressed : List Nat) : List Nat × List IAction :=
  ([], (pressed.filterMap vnckey_to_pynput).map IAction.release)

/-- Driver feeding a sequence of key-down events to `handle_key_event`,
collecting the issued actions. -/
def apply_downs : List Nat → List Nat → List Nat × List IAction
  | pressed, [] => (pressed, [])
  | pressed, k :: ks =>
    let r := handle_key_event pressed k true
    let rest := apply_downs r.1 ks
    (rest.1, r.2 ++ rest.2)

/-! ### vnc_runner.py — the streaming message loop

`PythonVNCRunner._message_loop` accumulates received binary frames in a
parse buffer and drains complete messages from its head.  A
FramebufferUpdateRequest (type 3) triggers `capture_frame`, whose call to
`encode_frame_update` always raises `struct.error` (see `encode_frame_update`
above), so processing a type-3 message aborts the loop with an error; the
`except` clause clears the streaming flag and re-raises, and the `finally`
clause runs `_stop_vnc_streaming`. -/

/-- One step of the drain loop on the parse buffer: stop (incomplete or
empty), consume a message — possibly producing an input-event payload for
`handle_input_event` — or hit a FramebufferUpdateRequest whose processing
raises. -/
inductive DrainStep where
  | stop : DrainStep
  | consume (newBuf : List Nat) (payload : Option (List Nat)) : DrainStep
  | frameReq (newBuf : List Nat) : DrainStep
deriving DecidableEq, Repr

/-- The head-of-buffer dispatch of `_message_loop`: SetPixelFormat (0, 20
bytes), SetEncodings (2, `4 + count*4` bytes), FramebufferUpdateRequest
(3, 10 bytes), KeyEvent (4, 8 bytes), PointerEvent (5, 6 bytes),
ClientCutText (6, `8 + length` bytes), otherwise drop one byte to resync. -/
def drainStep : List Nat → DrainStep
  | [] => .stop
  | t :: rest =>
    if t = 0 then
      if (t :: rest).length < 20 then .stop
      else .consume ((t :: rest).drop 20) none
    else if t = 2 then
      if (t :: rest).length < 4 then .stop
      else
        let encCount := beWord16 ((t :: rest).getD 2 0) ((t :: rest).getD 3 0)
        let total := 4 + encCount * 4
        if (t :: rest).length < total then .stop
        else .consume ((t :: rest).drop total) none
    else if t = 3 then
      if (t :: rest).length < 10 then .stop
      else .frameReq ((t :: rest).drop 10)
    else if t = 4 then
      if (t :: rest).length < 8 then .stop
      else .consume ((t :: rest).drop 8) (some ((t :: rest).take 8))
    else if t = 5 then
      if (t :: rest).length < 6 then .stop
      else .consume ((t :: rest).drop 6) (some ((t :: rest).take 6))
    else if t = 6 then
      if (t :: rest).length < 8 then .stop
      else
        let total := 8 + beWord32 ((t :: rest).getD 4 0) ((t :: rest).getD 5 0)
          ((t :: rest).getD 6 0) ((t :: rest).getD 7 0)
        if (t :: rest).length < total then .stop
        else .consume ((t :: rest).drop total) (some ((t :: rest).take total))
    else .consume rest none

/-- Result of draining the parse buffer: the remaining bytes, the
input-event payloads handed to `VNCServer.handle_input_event` in order, and
whether a FramebufferUpdateRequest aborted the loop with an error. -/
structure DrainRes where
  buffer : List Nat
  payloads : List (List Nat)
  frameErr : Bool
deriving DecidableEq, Repr

/-- Drain loop with explicit fuel; each consumed message removes at least one
byte, so fuel equal to the buffer length never runs out. -/
def drainGo : Nat → List Nat → List (List Nat) → DrainRes
  | 0, buf, acc => ⟨buf, acc, false⟩
  | fuel + 1, buf, acc =>
    match drainStep buf with
    | .stop => ⟨buf, acc, false⟩
    | .frameReq nb => ⟨nb, acc, true⟩
    | .consume nb none => drainGo fuel nb acc
    | .consume nb (some p) => drainGo fuel nb (acc ++ [p])

/-- Drain all complete messages from the head of the parse buffer. -/
def drainBuffer (buf : List Nat) : DrainRes :=
  drainGo buf.length buf []

/-- Applying one dispatched input event to the pressed-key set (pointer
events never touch it). -/
def applyDispatch (pressed : List Nat) : Dispatch → List Nat
  | .keyEvt e => (handle_key_event pressed e.key e.down).1
  | .ptrEvt _ => pressed

/-- The session state visible to the streaming loop: the runner's
`streaming` and `is_running` flags, whether the WebSocket handle is open,
the parse buffer, and the input handler's pressed-key set. -/
structure SessState where
  streaming : Bool
  isRunning : Bool
  wsOpen : Bool
  buffer : List Nat
  pressed : List Nat
deriving DecidableEq, Repr

/-- One item received from the WebSocket: a close, a text frame (skipped by
the loop), or a binary frame.  An exhausted schedule models cancellation at
the next `recv`, which also runs the `finally` clause. -/
inductive Recv where
  | closed : Recv
  | text : Recv
  | bin (data : List Nat) : Recv
deriving DecidableEq, Repr

/-- `PythonVNCRunner._stop_vnc_streaming`: clears the streaming flag and
closes the WebSocket handle if still open.  It does not touch the
pressed-key set. -/
def stop_vnc_streaming (s : SessState) : SessState :=
  { s with streaming := false, wsOpen := false }

/-- The body of `_message_loop` over a schedule of received items, without
the trailing `finally`. -/
def messageLoopGo : SessState → List Recv → SessState
  | s, [] => s
  | s, r :: rest =>
    if s.streaming ∧ s.isRunning then
      match r with
      | .closed => { s with streaming := false }
      | .text => messageLoopGo s rest
      | .bin d =>
        let res := drainBuffer (s.buffer ++ d)
        let pressed := (res.payloads.flatMap handle_input_event).foldl applyDispatch s.pressed
        let s2 : SessState := { s with buffer := res.buffer, pressed := pressed }
        if res.frameErr then { s2 with streaming := false } else messageLoopGo s2 rest
    else s

/-- `_message_loop` including its `finally` clause: whatever way the loop
exits — connection closed, error from a frame request, cancellation, or the
flags being clear — `_stop_vnc_streaming` runs. -/
def message_loop (s : SessState) (sched : List Recv) : SessState :=
  stop_vnc_streaming (messageLoopGo s sched)

/-- `PythonVNCRunner.stop`: stops streaming if active, closes the WebSocket,
and calls `VNCServer.cleanup`, which runs `InputHandler.release_all`.  This
is the only place the pressed-key set is released. -/
def runner_stop (s : SessState) : SessState :=
  let s1 := if s.streaming then stop_vnc_streaming s else s
  let s2 : SessState := { s1 with wsOpen := false }
  { s2 with pressed := (release_all s2.pressed).1 }

/-! ### screen_capturer.py — dirty-region merging -/

/-- A dirty region `(x, y, width, height)` as produced by
`ScreenCapturerDelta._find_dirty_blocks`. -/
structure Region where
  x : Int
  y : Int
  w : Int
  h : Int
deriving DecidableEq, Repr

/-- `ScreenCapturerDelta._can_merge`: two regions merge when their bounding
boxes overlap or are within `margin` (the block size) of each other in both
axes. -/
def can_merge (margin : Int) (r1 r2 : Region) : Bool :=
  !(decide (r1.x + r1.w + margin < r2.x) || decide (r2.x + r2.w + margin < r1.x) ||
    decide (r1.y + r1.h + margin < r2.y) || decide (r2.y + r2.h + margin < r1.y))

/-- The bounding box of two regions, as computed inside `_merge_regions`. -/
def merge_two (r1 r2 : Region) : Region :=
  let nx := min r1.x r2.x
  let ny := min r1.y r2.y
  { x := nx, y := ny,
    w := max (r1.x + r1.w) (r2.x + r2.w) - nx,
    h := max (r1.y + r1.h) (r2.y + r2.h) - ny }

/-- The sort key ordering of `_merge_regions`: lexicographic on `(y, x)`. -/
def regionLe (r1 r2 : Region) : Prop :=
  r1.y < r2.y ∨ (r1.y = r2.y ∧ r1.x ≤ r2.x)

instance : DecidableRel regionLe := fun r1 r2 =>
  inferInstanceAs (Decidable (r1.y < r2.y ∨ (r1.y = r2.y ∧ r1.x ≤ r2.x)))

/-- `sorted(regions, key=(y, x))`: Python's sort is stable, and a stable sort
by a fixed key has a unique result, so the stable `List.insertionSort` with
the non-strict lexicographic order is extensionally the same function. -/
def sort_regions (l : List Region) : List Region :=
  List.insertionSort regionLe l

/-- The single merging pass of `_merge_regions`: each remaining region is
merged into the last region of the output when `_can_merge` holds, and
appended otherwise.  `doneRev` holds the finished output regions in reverse. -/
def merge_pass (margin : Int) : Region → List Region → List Region → List Region
  | last, doneRev, [] => doneRev.reverse ++ [last]
  | last, doneRev, c :: cs =>
    if can_merge margin last c then merge_pass margin (merge_two last c) doneRev cs
    else merge_pass margin c (last :: doneRev) cs

/-- `ScreenCapturerDelta._merge_regions`: sort by `(y, x)`, then one greedy
pass merging each region into the last output region.  The pass is not
iterated to a fixed point. -/
def merge_regions (margin : Int) (regions : List Region) : List Region :=
  match regions with
  | [] => []
  | _ =>
    match sort_regions regions with
    | [] => []
    | f :: rest => merge_pass margin f [] rest

/-! ### gateway_client.py — SHA-256, HMAC and request signing

`RunAuth.create_signature` calls `hashlib.sha256` and `hmac.new(...,
hashlib.sha256)`; both are implemented here executably over byte lists
(FIPS 180-4 and FIPS 198-1), with 32-bit words as `Nat` reduced modulo
`2^32`. -/

/-- UTF-8 encoding of one Unicode code point, as Python `str.encode()`
produces for the strings the client signs. -/
def utf8EncodeCp (c : Nat) : List Nat :=
  if c < 128 then [c]
  else if c < 2048 then [192 ||| (c >>> 6), 128 ||| (c &&& 63)]
  else if c < 65536 then
    [224 ||| (c >>> 12), 128 ||| ((c >>> 6) &&& 63), 128 ||| (c &&& 63)]
  else
    [240 ||| (c >>> 18), 128 ||| ((c >>> 12) &&& 63),
     128 ||| ((c >>> 6) &&& 63), 128 ||| (c &&& 63)]

/-- The UTF-8 bytes of a string (`str.encode()` in the Python source). -/
def strBytes (s : String) : List Nat :=
  s.data.flatMap (fun c => utf8EncodeCp c.toNat)

/-- Reduction modulo `2^32`, the wrap-around of 32-bit words. -/
def u32mask (n : Nat) : Nat := n % 4294967296

/-- Right rotation of a 32-bit word. -/
def rotr32 (k x : Nat) : Nat := u32mask ((x >>> k) ||| (x <<< (32 - k)))

/-- SHA-256 choice function. -/
def shaCh (x y z : Nat) : Nat := (x &&& y) ^^^ ((x ^^^ 4294967295) &&& z)

/-- SHA-256 majority function. -/
def shaMaj (x y z : Nat) : Nat := (x &&& y) ^^^ (x &&& z) ^^^ (y &&& z)

/-- SHA-256 big sigma 0. -/
def bsig0 (x : Nat) : Nat := rotr32 2 x ^^^ rotr32 13 x ^^^ rotr32 22 x

/-- SHA-256 big sigma 1. -/
def bsig1 (x : Nat) : Nat := rotr32 6 x ^^^ rotr32 11 x ^^^ rotr32 25 x

/-- SHA-256 small sigma 0. -/
def ssig0 (x : Nat) : Nat := rotr32 7 x ^^^ rotr32 18 x ^^^ (x >>> 3)

/-- SHA-256 small sigma 1. -/
def ssig1 (x : Nat) : Nat := rotr32 17 x ^^^ rotr32 19 x ^^^ (x >>> 10)

/-- The 64 SHA-256 round constants. -/
def shaK : List Nat :=
  [1116352408, 1899447441, 3049323471, 3921009573, 961987163,
   1508970993, 2453635748, 2870763221, 3624381080, 310598401,
   607225278, 1426881987, 1925078388, 2162078206, 2614888103,
   3248222580, 3835390401, 4022224774, 264347078, 604807628,
   770255983, 1249150122, 1555081692, 1996064986, 2554220882,
   2821834349, 2952996808, 3210313671, 3336571891, 3584528711,
   113926993, 338241895, 666307205, 773529912, 1294757372,
   1396182291, 1695183700, 1986661051, 2177026350, 2456956037,
   2730485921, 2820302411, 3259730800, 3345764771, 3516065817,
   3600352804, 4094571909, 275423344, 430227734, 506948616,
   659060556, 883997877, 958139571, 1322822218, 1537002063,
   1747873779, 1955562222, 2024104815, 2227730452, 2361852424,
   2428436474, 2756734187, 3204031479, 3329325298]

/-- The eight SHA-256 initial hash values. -/
def shaH0 : List Nat :=
  [1779033703, 3144134277, 1013904242, 2773480762, 1359893119,
   2600822924, 528734635, 1541459225]

/-- SHA-256 padding: append `0x80`, zero bytes, and the 64-bit big-endian bit
length, reaching a multiple of 64 bytes. -/
def shaPad (msg : List Nat) : List Nat :=
  msg ++ 128 :: List.replicate ((119 - msg.length % 64) % 64) 0 ++ be64 (8 * msg.length)

/-- Group bytes into big-endian 32-bit words. -/
def toWords : List Nat → List Nat
  | b0 :: b1 :: b2 :: b3 :: rest => beWord32 b0 b1 b2 b3 :: toWords rest
  | _ => []

/-- Extend the 16-word block to the 64-word message schedule. -/
def extendW : Nat → List Nat → List Nat
  | 0, ws => ws
  | f + 1, ws =>
    let i := ws.length
    extendW f (ws ++ [u32mask (ssig1 (ws.getD (i - 2) 0) + ws.getD (i - 7) 0 +
      ssig0 (ws.getD (i - 15) 0) + ws.getD (i - 16) 0)])

/-- One SHA-256 round on the eight-word working state, given `k[t] + w[t]`. -/
def roundStep (st : List Nat) (kw : Nat) : List Nat :=
  match st with
  | [a, b, c, d, e, f, g, h] =>
    let t1 := u32mask (h + bsig1 e + shaCh e f g + kw)
    let t2 := u32mask (bsig0 a + shaMaj a b c)
    [u32mask (t1 + t2), a, b, c, u32mask (d + t1), e, f, g]
  | other => other

/-- Compress one 64-byte block into the eight-word state. -/
def compressBlock (st : List Nat) (block : List Nat) : List Nat :=
  let ws := extendW 48 (toWords block)
  let kws := List.zipWith (fun k w => u32mask (k + w)) shaK ws
  let fin := kws.foldl roundStep st
  List.zipWith (fun x y => u32mask (x + y)) st fin

/-- Compress successive 64-byte blocks; the fuel equals the block count. -/
def sha256Go : Nat → List Nat → List Nat → List Nat
  | 0, st, _ => st
  | _ + 1, st, [] => st
  | f + 1, st, msg => sha256Go f (compressBlock st (msg.take 64)) (msg.drop 64)

/-- SHA-256 of a byte string, as a 32-byte digest. -/
def sha256Bytes (msg : List Nat) : List Nat :=
  let padded := shaPad msg
  (sha256Go (padded.length / 64) shaH0 padded).flatMap be32

/-- Lower-case hexadecimal digit. -/
def hexDigitChar (d : Nat) : Char :=
  if d < 10 then Char.ofNat (48 + d) else Char.ofNat (87 + d)

/-- Lower-case hexadecimal rendering of a byte string (`hexdigest()`). -/
def bytesToHex (bs : List Nat) : String :=
  String.mk (bs.flatMap (fun b => [hexDigitChar (b / 16), hexDigitChar (b % 16)]))

/-- `hashlib.sha256(body.encode()).hexdigest()`. -/
def sha256HexStr (s : String) : String :=
  bytesToHex (sha256Bytes (strBytes s))

/-- HMAC-SHA256 (FIPS 198-1) over byte strings, as `hmac.new(key, msg,
hashlib.sha256).digest()` computes it. -/
def hmacSha256 (key msg : List Nat) : List Nat :=
  let k := if key.length > 64 then sha256Bytes key else key
  let k0 := k ++ List.replicate (64 - k.length) 0
  sha256Bytes ((k0.map (fun b => b ^^^ 92)) ++
    sha256Bytes ((k0.map (fun b => b ^^^ 54)) ++ msg))

/-- Little-endian decimal digits of `n`, with fuel; `n + 1` fuel always
suffices. -/
def natDigitsRev : Nat → Nat → List Nat
  | 0, _ => []
  | f + 1, n => if n < 10 then [n] else n % 10 :: natDigitsRev f (n / 10)

/-- A decimal digit character. -/
def decDigitChar (d : Nat) : Char := Char.ofNat (48 + d)

/-- Python `str(n)` for a nonnegative integer: most-significant-first decimal
digits with no leading zeros (the timestamp is `int(time.time())`, which is
nonnegative). -/
def natStr (n : Nat) : String :=
  String.mk (((natDigitsRev (n + 1) n).reverse).map decDigitChar)

/-- The message `RunAuth.create_signature` signs:
`'\n'.join([method, path, body_hash, str(timestamp), nonce, run_id,
capability_token])` with `body_hash = sha256(body.encode()).hexdigest()`. -/
def signed_message (method path body : String) (timestamp : Nat)
    (nonce runId capabilityToken : String) : String :=
  String.intercalate "\n"
    [method, path, sha256HexStr body, natStr timestamp, nonce, runId, capabilityToken]

/-- `RunAuth.create_signature`: the hex HMAC-SHA256, under the secret, of the
newline-joined message. -/
def create_signature (hmacSecret runId capabilityToken method path body : String)
    (timestamp : Nat) (nonce : String) : String :=
  bytesToHex (hmacSha256 (strBytes hmacSecret)
    (strBytes (signed_message method path body timestamp nonce runId capabilityToken)))

/-- The signature exactly as the specification words it:
HMAC-SHA256(secret, method+newline+path+newline+sha256hex(body)+newline+
timestamp+newline+nonce+newline+runId+newline+capabilityToken), rendered in
hex.  Kept separate from `create_signature` so the source-translated
definition can be compared against the spec-worded one. -/
def spec_signature (hmacSecret runId capabilityToken method path body : String)
    (timestamp : Nat) (nonce : String) : String :=
  bytesToHex (hmacSha256 (strBytes hmacSecret)
    (strBytes (method ++ "\n" ++ path ++ "\n" ++ sha256HexStr body ++ "\n" ++
      natStr timestamp ++ "\n" ++ nonce ++ "\n" ++ runId ++ "\n" ++ capabilityToken)))

/-- The nonce every signed request uses: `uuid.uuid4().hex[:16]`, modelled as
a function of the 32-character uuid4 hex string. -/
def make_nonce (uuidHex : String) : String :=
  String.mk (uuidHex.data.take 16)

/-! ### gateway_client.py — HTTP calls

The HTTP layer is modelled by the outcome of one request: a transport
failure (`httpx.TransportError`, an `httpx.HTTPError`), or a response with a
status code and a body — `none` when the body is not valid JSON, so that
`response.json()` raises `ValueError`, which is not an `httpx.HTTPError`. -/

/-- A JSON value, for response bodies. -/
inductive Json where
  | null : Json
  | bool (b : Bool) : Json
  | num (n : Int) : Json
  | str (s : String) : Json
  | arr (items : List Json) : Json
  | obj (fields : List (String × Json)) : Json

/-- The Python exceptions the client code can raise or catch. -/
inductive PyErr where
  | valueError : PyErr
  | typeError : PyErr
  | keyError : PyErr
  | attributeError : PyErr
  | httpTransport : PyErr
  | httpStatus (status : Nat) : PyErr
deriving DecidableEq, Repr

/-- Whether an exception is an `httpx.HTTPError` (transport errors and
`HTTPStatusError` both are). -/
def PyErr.isHttpError : PyErr → Bool
  | .httpTransport => true
  | .httpStatus _ => true
  | _ => false

/-- `gateway_client.Command` as constructed from a polled record: the code
performs no type validation, so each field is an arbitrary JSON value. -/
structure Command where
  commandId : Json
  command : Json
  arguments : Json

/-- Python truthiness of a JSON value (for `arguments or {}`). -/
def jsonTruthy : Json → Bool
  | .null => false
  | .bool b => b
  | .num n => n != 0
  | .str s => s.length != 0
  | .arr l => l.length != 0
  | .obj kvs => kvs.length != 0

/-- `Command.__init__` stores `arguments or {}`. -/
def arg_or_empty (v : Option Json) : Json :=
  match v with
  | none => .obj []
  | some j => if jsonTruthy j then j else .obj []

/-- Python iteration over the polled `command_list` value: lists yield their
items, strings their characters, dicts their keys; other values raise
`TypeError`. -/
def jsonIterList : Json → Except PyErr (List Json)
  | .arr l => .ok l
  | .str s => .ok (s.data.map (fun c => .str (String.mk [c])))
  | .obj kvs => .ok (kvs.map (fun kv => .str kv.1))
  | _ => .error .typeError

/-- Building one `Command` from a polled record: `cmd['id']` (KeyError when
missing, TypeError when `cmd` is not a dict), then `cmd['command']`, then
`cmd.get('arguments')`. -/
def extract_command (cmd : Json) : Except PyErr Command :=
  match cmd with
  | .obj kvs =>
    match kvs.lookup "id" with
    | none => .error .keyError
    | some cid =>
      match kvs.lookup "command" with
      | none => .error .keyError
      | some c => .ok ⟨cid, c, arg_or_empty (kvs.lookup "arguments")⟩
  | _ => .error .typeError

/-- Outcome of one HTTP request made through httpx. -/
inductive HttpOutcome where
  | transportError : HttpOutcome
  | response (status : Nat) (body : Option Json) : HttpOutcome

/-- httpx `codes.is_success`: a 2xx status. -/
def is_success (status : Nat) : Bool := decide (200 ≤ status ∧ status ≤ 299)

/-- The request plus `response.raise_for_status()`: a transport failure
raises a transport `httpx.HTTPError`; a non-2xx response raises
`httpx.HTTPStatusError`. -/
def request_raise_status (o : HttpOutcome) : Except PyErr Unit :=
  match o with
  | .transportError => .error .httpTransport
  | .response st _ => if is_success st then .ok () else .error (.httpStatus st)

/-- `GatewayClient.poll_commands`: `except httpx.HTTPError: return []` covers
transport errors and non-2xx statuses, but `response.json()` decode errors
and malformed command records raise exceptions that the `except` clause does
not catch. -/
def poll_commands (o : HttpOutcome) : Except PyErr (List Command) :=
  match o with
  | .transportError => .ok []
  | .response st body =>
    if is_success st then
      match body with
      | none => .error .valueError
      | some data =>
        let commandListE : Except PyErr Json :=
          match data with
          | .arr l => .ok (.arr l)
          | .obj kvs => .ok ((kvs.lookup "commands").getD (.arr []))
          | _ => .error .attributeError
        match commandListE with
        | .error e => .error e
        | .ok cl =>
          match jsonIterList cl with
          | .error e => .error e
          | .ok items => items.mapM extract_command
    else .ok []

/-- `GatewayClient.send_heartbeat`: `except httpx.HTTPError` logs and falls
through — the error is swallowed and the coroutine returns normally. -/
def send_heartbeat (o : HttpOutcome) : Except PyErr Unit :=
  match request_raise_status o with
  | .ok _ => .ok ()
  | .error e => if e.isHttpError then .ok () else .error e

/-- `GatewayClient.send_event`: `except httpx.HTTPError` logs and re-raises;
the sequence counter increments only on success. -/
def send_event (o : HttpOutcome) (sequence : Nat) : Except PyErr Unit × Nat :=
  match request_raise_status o with
  | .ok _ => (.ok (), sequence + 1)
  | .error e => (.error e, sequence)

/-- `GatewayClient.ack_command`: logs and re-raises on `httpx.HTTPError`. -/
def ack_command (o : HttpOutcome) : Except PyErr Unit :=
  request_raise_status o

/-- `GatewayClient.register_client`: logs and re-raises on `httpx.HTTPError`. -/
def register_client (o : HttpOutcome) : Except PyErr Unit :=
  request_raise_status o

/-- Accumulator form of decimal parsing, inverse to `natStr` (proof tool). -/
def parseDigitsAcc (acc : Nat) (l : List Char) : Nat :=
  l.foldl (fun a c => a * 10 + (c.toNat - 48)) acc

/-! ### Theorems: claims C1–C4, C8, C9 -/

/-- C1: for every rectangle position, size, encoding and payload,
`encode_frame_update` is claimed to return a FramebufferUpdate message whose
rectangle header decodes back to the inputs.  In fact the call
`struct.pack(HHHHH, x, y, width, height)` supplies four values to a
five-slot format, so `encode_frame_update` raises `struct.error` on every
input and never returns a message; the repository's own
`test_frame_encoding` test expects it to return bytes. -/
theorem encode_frame_update_always_raises
    (frameData : List Nat) (x y width height encoding : Int) :
    encode_frame_update frameData x y width height encoding = none := rfl

/-- C3: `parse_key_event` applied to `00 01 00 00 00 00 00 41` is claimed to
yield `{down: true, key: 0x41}`.  The code reads the down flag from byte 0 —
which its own layout comment documents as the message-type byte — so it
yields `down = false` instead; the repository's `test_key_event_parsing`
test asserts `down = true` on exactly this input and fails. -/
theorem parse_key_event_reads_type_byte_as_down_flag :
    parse_key_event [0x00, 0x01, 0x00, 0x00, 0x00, 0x00, 0x00, 0x41] =
      some { down := false, key := 0x41 } := by decide

theorem handle_input_event_short4 (l : List Nat) (h : l.length < 8) :
    handle_input_event (4 :: l) = [] := by
  simp [handle_input_event, parse_key_event, h]

theorem handle_input_event_short5 (l : List Nat) (h : l.length < 6) :
    handle_input_event (5 :: l) = [] := by
  simp [handle_input_event, parse_pointer_event, h]

theorem handle_input_event_cut_text (l : List Nat) :
    handle_input_event (6 :: l) = [] := by
  simp [handle_input_event]

theorem handle_input_event_take_cut (n : Nat) (l : List Nat) :
    handle_input_event ((6 :: l).take (8 + n)) = [] := by
  rw [show 8 + n = (7 + n) + 1 from by omega, List.take_succ_cons]
  exact handle_input_event_cut_text _

theorem drainStep_payload_nil (buf nb : List Nat) (p : List Nat)
    (h : drainStep buf = .consume nb (some p)) : handle_input_event p = [] := by
  match buf with
  | [] => simp [drainStep] at h
  | t :: rest =>
    rcases Nat.lt_or_ge t 7 with h7 | h7
    · interval_cases t
      · -- SetPixelFormat: no payload
        simp [drainStep] at h
        split_ifs at h
        simp at h
      · -- unknown type 1: resync, no payload
        simp [drainStep] at h
      · -- SetEncodings: no payload
        simp [drainStep] at h
        split_ifs at h
        simp at h
      · -- FramebufferUpdateRequest: frameReq, no payload
        simp [drainStep] at h
        split_ifs at h
      · -- KeyEvent: the 8-byte payload keeps the type byte, so the parser
        -- sees only 7 bytes and fails.
        simp only [drainStep] at h
        norm_num at h
        split_ifs at h with hl
        rcases h with ⟨-, hp⟩
        exact handle_input_event_short4 _
          (Nat.lt_succ_of_le (List.length_take_le 7 rest))
      · -- PointerEvent: the 6-byte payload keeps the type byte, so the
        -- parser sees only 5 bytes and fails.
        simp only [drainStep] at h
        norm_num at h
        split_ifs at h with hl
        rcases h with ⟨-, hp⟩
        exact handle_input_event_short5 _
          (Nat.lt_succ_of_le (List.length_take_le 5 rest))
      · -- ClientCutText: parsed but only logged, never dispatched
        simp only [drainStep] at h
        norm_num at h
        split_ifs at h with hl1 hl2
        rcases h with ⟨-, hp⟩
        exact handle_input_event_take_cut _ _
    · -- unknown type ≥ 7: resync, no payload
      have h0 : ¬ t = 0 := by omega
      have h2 : ¬ t = 2 := by omega
      have h3 : ¬ t = 3 := by omega
      have h4 : ¬ t = 4 := by omega
      have h5 : ¬ t = 5 := by omega
      have h6 : ¬ t = 6 := by omega
      simp [drainStep, h0, h2, h3, h4, h5, h6] at h

/-- Dispatch payloads drained by the loop never reach the input handler. -/
theorem drainGo_payload_nil (fuel : Nat) :
    ∀ (buf : List Nat) (acc : List (List Nat)),
      (∀ q ∈ acc, handle_input_event q = []) →
      ∀ q ∈ (drainGo fuel buf acc).payloads, handle_input_event q = [] := by
  induction fuel with
  | zero => intro buf acc hacc q hq; exact hacc q hq
  | succ fuel ih =>
    intro buf acc hacc q hq
    simp only [drainGo] at hq
    cases hstep : drainStep buf with
    | stop => rw [hstep] at hq; exact hacc q hq
    | frameReq nb => rw [hstep] at hq; exact hacc q hq
    | consume nb payload =>
      cases payload with
      | none => rw [hstep] at hq; exact ih nb acc hacc q hq
      | some p =>
        rw [hstep] at hq
        refine ih nb (acc ++ [p]) ?_ q hq
        intro r hr
        rcases List.mem_append.mp hr with hr | hr
        · exact hacc r hr
        · rw [List.mem_singleton.mp hr]
          exact drainStep_payload_nil buf nb p hstep

theorem flatMap_nil_of_forall {α β : Type} (f : α → List β) :
    ∀ l : List α, (∀ a ∈ l, f a = []) → l.flatMap f = [] := by
  intro l
  induction l with
  | nil => intro _; rfl
  | cons a l ih =>
    intro h
    simp [List.flatMap_cons, h a (by simp), ih (fun x hx => h x (List.mem_cons_of_mem _ hx))]

/-- C2: every complete KeyEvent (8 bytes, type 4) and PointerEvent (6 bytes,
type 5) drained from the parse buffer is claimed to be dispatched to the
input handler.  In fact `handle_input_event` strips the type byte before
calling a parser that itself expects the type byte to still be present, so
the parser always sees one byte too few, returns `None`, and the event is
silently skipped — for key events, pointer events, and consequently for
every payload the drain loop ever produces. -/
theorem handle_input_event_drops_loop_payloads :
    (∀ payload : List Nat, payload.length = 8 → payload.head? = some 4 →
        handle_input_event payload = []) ∧
    (∀ payload : List Nat, payload.length = 6 → payload.head? = some 5 →
        handle_input_event payload = []) ∧
    (∀ buf : List Nat, (drainBuffer buf).payloads.flatMap handle_input_event = []) := by
  refine ⟨?_, ?_, ?_⟩
  · intro payload hlen hhead
    match payload, hlen with
    | t :: rest, hlen =>
      simp only [List.head?] at hhead
      obtain rfl : t = 4 := Option.some.inj hhead
      have hr : rest.length = 7 := by simpa using hlen
      simp [handle_input_event, parse_key_event, hr]
  · intro payload hlen hhead
    match payload, hlen with
    | t :: rest, hlen =>
      simp only [List.head?] at hhead
      obtain rfl : t = 5 := Option.some.inj hhead
      have hr : rest.length = 5 := by simpa using hlen
      simp [handle_input_event, parse_pointer_event, hr]
  · intro buf
    exact flatMap_nil_of_forall handle_input_event _
      (drainGo_payload_nil buf.length buf [] (by simp))

/-- Witness for `handle_input_event_drops_loop_payloads` at the concrete
KeyEvent `04 01 00 00 00 00 00 41` and PointerEvent `05 01 03 C0 02 58`. -/
theorem handle_input_event_drops_loop_payloads_witness :
    handle_input_event [4, 1, 0, 0, 0, 0, 0, 65] = [] ∧
    handle_input_event [5, 1, 3, 192, 2, 88] = [] :=
  ⟨handle_input_event_drops_loop_payloads.1 [4, 1, 0, 0, 0, 0, 0, 65] (by decide) (by decide),
   handle_input_event_drops_loop_payloads.2.1 [5, 1, 3, 192, 2, 88] (by decide) (by decide)⟩

/-- C4 counterexample: a session whose input handler holds key 65 pressed
exits the message loop on a connection close; the teardown (`finally` →
`_stop_vnc_streaming`) closes the transport but the pressed-key set is not
released, contradicting the claim that teardown always releases every
pressed key. -/
theorem message_loop_keys_not_released :
    (message_loop ⟨true, true, true, [], [65]⟩ [.closed]).pressed = [65] ∧
    (message_loop ⟨true, true, true, [], [65]⟩ [.closed]).pressed ≠ [] ∧
    (message_loop ⟨true, true, true, [], [65]⟩ [.closed]).wsOpen = false := by
  decide

/-- C4 (amended): whenever the streaming message loop exits — error,
cancellation, connection close or normal completion — the teardown closes
the transport and clears the streaming flag, but leaves the pressed-key set
exactly as the loop left it; pressed keys are released only by the
runner-level `stop`, whose `cleanup` empties the set.  The loop itself never
sets the streaming flag. -/
theorem message_loop_teardown (s : SessState) (sched : List Recv) :
    (message_loop s sched).wsOpen = false ∧
    (message_loop s sched).streaming = false ∧
    (message_loop s sched).pressed = (messageLoopGo s sched).pressed ∧
    ((messageLoopGo s sched).streaming = true → s.streaming = true) ∧
    (runner_stop s).pressed = [] ∧ (runner_stop s).wsOpen = false := by
  refine ⟨rfl, rfl, rfl, ?_, ?_, ?_⟩
  · cases sched with
    | nil => intro h; exact h
    | cons r rest =>
      by_cases hc : s.streaming ∧ s.isRunning
      · intro _; exact hc.1
      · intro h
        simp only [messageLoopGo, if_neg hc] at h
        exact h
  · simp [runner_stop, release_all]
  · by_cases hs : s.streaming <;> simp [runner_stop, stop_vnc_streaming, hs]

/-- Witness for `message_loop_teardown` at a concrete initial state and the
empty schedule. -/
theorem message_loop_teardown_witness :
    (message_loop ⟨true, true, true, [], []⟩ []).wsOpen = false ∧
    (true = true) :=
  ⟨(message_loop_teardown ⟨true, true, true, [], []⟩ []).1,
   (message_loop_teardown ⟨true, true, true, [], []⟩ []).2.2.2.1 (by decide)⟩

/-- C8 counterexample: the merge pass is not idempotent.  On the block list
`[(0,0,60,16), (100,0,16,16), (68,10,16,16)]` with block size 16, the first
pass merges the last two regions into `(68,0,48,26)`, which now lies within
16 pixels of `(0,0,60,16)`; a second application of `_merge_regions` merges
further, so merging an already-merged list changes it. -/
theorem merge_regions_not_idempotent :
    merge_regions 16 (merge_regions 16
        [⟨0, 0, 60, 16⟩, ⟨100, 0, 16, 16⟩, ⟨68, 10, 16, 16⟩]) ≠
      merge_regions 16 [⟨0, 0, 60, 16⟩, ⟨100, 0, 16, 16⟩, ⟨68, 10, 16, 16⟩] := by
  decide

theorem merge_pass_no_merge (margin : Int) :
    ∀ (rest : List Region) (f : Region) (doneRev : List Region),
      List.Chain' (fun a b => can_merge margin a b = false) (f :: rest) →
      merge_pass margin f doneRev rest = doneRev.reverse ++ f :: rest := by
  intro rest
  induction rest with
  | nil => intro f doneRev _; rfl
  | cons c cs ih =>
    intro f doneRev hchain
    have hfc : can_merge margin f c = false := (List.chain'_cons.mp hchain).1
    have hrec := ih c (f :: doneRev) (List.chain'_cons.mp hchain).2
    simp only [merge_pass, hfc, Bool.false_eq_true, if_false, hrec, List.reverse_cons,
      List.append_assoc, List.singleton_append]

/-- C8 (amended): `_merge_regions` performs a single greedy pass over the
regions sorted by `(y, x)`, merging each region into the last output region
when they overlap or are within the block size in both axes; the pass is not
iterated, so merging is not idempotent in general
(`merge_regions_not_idempotent`).  It does leave unchanged any list that is
already sorted and has no two consecutive mergeable regions. -/
theorem merge_regions_fixed_of_separated (margin : Int) (l : List Region)
    (hsorted : sort_regions l = l)
    (hsep : List.Chain' (fun a b => can_merge margin a b = false) l) :
    merge_regions margin l = l := by
  cases l with
  | nil => rfl
  | cons f rest =>
    show (match sort_regions (f :: rest) with
      | [] => []
      | g :: gs => merge_pass margin g [] gs) = f :: rest
    rw [hsorted]
    simpa using merge_pass_no_merge margin rest f [] hsep

/-- Witness for `merge_regions_fixed_of_separated` on a concrete separated
list. -/
theorem merge_regions_fixed_of_separated_witness :
    merge_regions 16 [⟨0, 0, 16, 16⟩, ⟨100, 100, 16, 16⟩] =
      [⟨0, 0, 16, 16⟩, ⟨100, 100, 16, 16⟩] :=
  merge_regions_fixed_of_separated 16 _ (by decide)
    (List.chain'_pair.mpr (by decide))

theorem apply_downs_pressed (ks : List Nat) :
    ∀ pressed : List Nat, ks.Nodup → (∀ k ∈ ks, (vnckey_to_pynput k).isSome) →
      (∀ k ∈ ks, k ∉ pressed) → (apply_downs pressed ks).1 = ks.reverse ++ pressed := by
  induction ks with
  | nil => intro pressed _ _ _; simp [apply_downs]
  | cons k ks ih =>
    intro pressed hnd hmap hdis
    have hk : (vnckey_to_pynput k).isSome := hmap k (by simp)
    obtain ⟨p, hp⟩ := Option.isSome_iff_exists.mp hk
    have hkp : k ∉ pressed := hdis k (by simp)
    have hstep : handle_key_event pressed k true = (k :: pressed, [.press p]) := by
      simp [handle_key_event, hp, hkp]
    have hrec := ih (k :: pressed) hnd.of_cons
      (fun x hx => hmap x (List.mem_cons_of_mem _ hx))
      (fun x hx => by
        simp only [List.mem_cons, not_or]
        exact ⟨fun h => (List.nodup_cons.mp hnd).1 (h ▸ hx),
               hdis x (List.mem_cons_of_mem _ hx)⟩)
    simp [apply_downs, hstep, hrec]

theorem filterMap_length_of_isSome {α β : Type} (f : α → Option β) :
    ∀ l : List α, (∀ a ∈ l, (f a).isSome) → (l.filterMap f).length = l.length := by
  intro l
  induction l with
  | nil => intro _; rfl
  | cons a l ih =>
    intro h
    obtain ⟨b, hb⟩ := Option.isSome_iff_exists.mp (h a (by simp))
    simp [List.filterMap_cons, hb, ih (fun x hx => h x (List.mem_cons_of_mem _ hx))]

/-- C9: key handling is idempotent over the pressed-key set.  For a mappable
key that is not currently pressed, the first down event issues exactly one
press action and the immediately repeated down event issues none; an up
event for a key that is not pressed issues no action and leaves the state
unchanged; and `release_all` after N distinct mappable down events from an
empty set issues exactly N release actions and empties the set. -/
theorem key_handling_idempotent :
    (∀ (pressed : List Nat) (key : Nat) (p : PKey),
        vnckey_to_pynput key = some p → key ∉ pressed →
        (handle_key_event pressed key true).2 = [.press p] ∧
        (handle_key_event (handle_key_event pressed key true).1 key true).2 = []) ∧
    (∀ (pressed : List Nat) (key : Nat), key ∉ pressed →
        handle_key_event pressed key false = (pressed, [])) ∧
    (∀ ks : List Nat, ks.Nodup → (∀ k ∈ ks, (vnckey_to_pynput k).isSome) →
        (release_all (apply_downs [] ks).1).2.length = ks.length ∧
        (release_all (apply_downs [] ks).1).1 = []) := by
  refine ⟨?_, ?_, ?_⟩
  · intro pressed key p hp hmem
    constructor
    · simp [handle_key_event, hp, hmem]
    · simp [handle_key_event, hp, hmem]
  · intro pressed key hmem
    cases hmap : vnckey_to_pynput key with
    | none => simp [handle_key_event, hmap]
    | some p => simp [handle_key_event, hmap, hmem]
  · intro ks hnd hmap
    have hps : (apply_downs [] ks).1 = ks.reverse ++ [] :=
      apply_downs_pressed ks [] hnd hmap (by simp)
    constructor
    · rw [hps]
      simp only [release_all, List.length_map, List.append_nil]
      rw [filterMap_length_of_isSome vnckey_to_pynput ks.reverse
        (fun k hk => hmap k (List.mem_reverse.mp hk))]
      exact List.length_reverse ks
    · rfl

/-- Witness for `key_handling_idempotent`: key 65 (letter A) starting from an
empty pressed set, and the distinct down events for Escape and letter A. -/
theorem key_handling_idempotent_witness :
    ((handle_key_event [] 65 true).2 = [.press (.ch 65)] ∧
      (handle_key_event (handle_key_event [] 65 true).1 65 true).2 = []) ∧
    handle_key_event [] 65 false = ([], []) ∧
    ((release_all (apply_downs [] [65307, 65]).1).2.length = 2 ∧
      (release_all (apply_downs [] [65307, 65]).1).1 = []) :=
  ⟨key_handling_idempotent.1 [] 65 (.ch 65) (by decide) (by decide),
   key_handling_idempotent.2.1 [] 65 (by decide),
   key_handling_idempotent.2.2 [65307, 65] (by decide) (by decide)⟩

/-! ### Theorems: claims C5–C7, C10 -/

set_option maxRecDepth 10000 in
theorem sha256HexStr_fips_vector :
    sha256HexStr "abc" =
      "ba7816bf8f01cfea414140de5dae2223b00361a396177a9cb410ff61f20015ad" := by
  rfl

set_option maxRecDepth 10000 in
theorem hmacSha256_rfc_vector :
    bytesToHex (hmacSha256 (strBytes "key")
        (strBytes "The quick brown fox jumps over the lazy dog")) =
      "f7bc83f430538424b13298e6aa6fb143ef4d59a14946175997479dbc2d1a3cd8" := by
  rfl

theorem stringDataAppend (s t : String) : (s ++ t).data = s.data ++ t.data := by
  cases s; cases t; rfl

theorem stringDataInj (s t : String) (h : s.data = t.data) : s = t := by
  cases s; cases t; exact congrArg String.mk h

theorem decDigit_roundtrip (d : Nat) (h : d < 10) : (decDigitChar d).toNat - 48 = d := by
  interval_cases d <;> decide

theorem parse_natDigitsRev (fuel : Nat) :
    ∀ n acc : Nat, n < fuel →
      parseDigitsAcc acc ((natDigitsRev fuel n).reverse.map decDigitChar) =
        acc * 10 ^ (natDigitsRev fuel n).length + n := by
  induction fuel with
  | zero => intro n acc h; exact absurd h (Nat.not_lt_zero n)
  | succ fuel ih =>
    intro n acc h
    by_cases h10 : n < 10
    · simp only [natDigitsRev, if_pos h10, List.reverse_cons, List.reverse_nil,
        List.nil_append, List.map_cons, List.map_nil, parseDigitsAcc, List.foldl_cons,
        List.foldl_nil, List.length_cons, List.length_nil, pow_one, zero_add]
      rw [decDigit_roundtrip n h10]
    · have hlt : n / 10 < fuel := by omega
      simp only [natDigitsRev, if_neg h10, List.reverse_cons, List.map_append,
        List.map_cons, List.map_nil, List.length_cons, parseDigitsAcc,
        List.foldl_append, List.foldl_cons, List.foldl_nil]
      have hIH := ih (n / 10) acc hlt
      simp only [parseDigitsAcc] at hIH
      rw [hIH, decDigit_roundtrip (n % 10) (Nat.mod_lt n (by omega)), pow_succ]
      have key : n / 10 * 10 + n % 10 = n := by omega
      have expand : (acc * 10 ^ (natDigitsRev fuel (n / 10)).length + n / 10) * 10 + n % 10 =
          acc * (10 ^ (natDigitsRev fuel (n / 10)).length * 10) +
            (n / 10 * 10 + n % 10) := by ring
      rw [expand, key]

theorem natStr_injective {m n : Nat} (h : natStr m = natStr n) : m = n := by
  have hm := parse_natDigitsRev (m + 1) m 0 (Nat.lt_succ_self m)
  have hn := parse_natDigitsRev (n + 1) n 0 (Nat.lt_succ_self n)
  simp only [natStr] at h
  have hd : ((natDigitsRev (m + 1) m).reverse.map decDigitChar) =
      ((natDigitsRev (n + 1) n).reverse.map decDigitChar) := by
    injection h
  rw [hd] at hm
  simp only [Nat.zero_mul, Nat.zero_add] at hm hn
  omega

theorem signed_message_eq (method path body : String) (ts : Nat)
    (nonce runId tok : String) :
    signed_message method path body ts nonce runId tok =
      method ++ "\n" ++ path ++ "\n" ++ sha256HexStr body ++ "\n" ++ natStr ts ++ "\n" ++
        nonce ++ "\n" ++ runId ++ "\n" ++ tok := rfl

/-- C5: `create_signature` returns the hex HMAC-SHA256, under the secret, of
the newline-joined message `method, path, sha256hex(body), timestamp, nonce,
runId, capabilityToken` — proved against `spec_signature`, the definition
written from the spec's words; it is deterministic; and changing any single
field changes the signed message, i.e. produces a different HMAC input
(method, path, timestamp, nonce, runId and token directly; the body through
its SHA-256 hex digest).  Distinct HMAC inputs give distinct signatures
except under an HMAC-SHA256 collision, the event the spec itself sets aside
as negligible. -/
theorem create_signature_matches_spec :
    (∀ (secret runId token method path body : String) (ts : Nat) (nonce : String),
        create_signature secret runId token method path body ts nonce =
          spec_signature secret runId token method path body ts nonce) ∧
    (∀ (secret runId token method path body : String) (ts : Nat) (nonce : String),
        create_signature secret runId token method path body ts nonce =
          create_signature secret runId token method path body ts nonce) ∧
    (∀ (m1 m2 p b : String) (ts : Nat) (n rid tok : String), m1 ≠ m2 →
        signed_message m1 p b ts n rid tok ≠ signed_message m2 p b ts n rid tok) ∧
    (∀ (m p1 p2 b : String) (ts : Nat) (n rid tok : String), p1 ≠ p2 →
        signed_message m p1 b ts n rid tok ≠ signed_message m p2 b ts n rid tok) ∧
    (∀ (m p b1 b2 : String) (ts : Nat) (n rid tok : String),
        sha256HexStr b1 ≠ sha256HexStr b2 →
        signed_message m p b1 ts n rid tok ≠ signed_message m p b2 ts n rid tok) ∧
    (∀ (m p b : String) (ts1 ts2 : Nat) (n rid tok : String), ts1 ≠ ts2 →
        signed_message m p b ts1 n rid tok ≠ signed_message m p b ts2 n rid tok) ∧
    (∀ (m p b : String) (ts : Nat) (n1 n2 rid tok : String), n1 ≠ n2 →
        signed_message m p b ts n1 rid tok ≠ signed_message m p b ts n2 rid tok) ∧
    (∀ (m p b : String) (ts : Nat) (n rid1 rid2 tok : String), rid1 ≠ rid2 →
        signed_message m p b ts n rid1 tok ≠ signed_message m p b ts n rid2 tok) ∧
    (∀ (m p b : String) (ts : Nat) (n rid tok1 tok2 : String), tok1 ≠ tok2 →
        signed_message m p b ts n rid tok1 ≠ signed_message m p b ts n rid tok2) := by
  refine ⟨fun _ _ _ _ _ _ _ _ => rfl, fun _ _ _ _ _ _ _ _ => rfl,
    ?_, ?_, ?_, ?_, ?_, ?_, ?_⟩
  · intro m1 m2 p b ts n rid tok hne h
    apply hne
    have hd := congrArg String.data h
    rw [signed_message_eq, signed_message_eq] at hd
    simp only [stringDataAppend, List.append_assoc] at hd
    rw [List.append_cancel_right_eq] at hd
    exact stringDataInj _ _ hd
  · intro m p1 p2 b ts n rid tok hne h
    apply hne
    have hd := congrArg String.data h
    rw [signed_message_eq, signed_message_eq] at hd
    simp only [stringDataAppend, List.append_assoc] at hd
    repeat rw [List.append_cancel_left_eq] at hd
    rw [List.append_cancel_right_eq] at hd
    exact stringDataInj _ _ hd
  · intro m p b1 b2 ts n rid tok hne h
    apply hne
    have hd := congrArg String.data h
    rw [signed_message_eq, signed_message_eq] at hd
    simp only [stringDataAppend, List.append_assoc] at hd
    repeat rw [List.append_cancel_left_eq] at hd
    rw [List.append_cancel_right_eq] at hd
    exact stringDataInj _ _ hd
  · intro m p b ts1 ts2 n rid tok hne h
    apply hne
    have hd := congrArg String.data h
    rw [signed_message_eq, signed_message_eq] at hd
    simp only [stringDataAppend, List.append_assoc] at hd
    repeat rw [List.append_cancel_left_eq] at hd
    rw [List.append_cancel_right_eq] at hd
    exact natStr_injective (stringDataInj _ _ hd)
  · intro m p b ts n1 n2 rid tok hne h
    apply hne
    have hd := congrArg String.data h
    rw [signed_message_eq, signed_message_eq] at hd
    simp only [stringDataAppend, List.append_assoc] at hd
    repeat rw [List.append_cancel_left_eq] at hd
    rw [List.append_cancel_right_eq] at hd
    exact stringDataInj _ _ hd
  · intro m p b ts n rid1 rid2 tok hne h
    apply hne
    have hd := congrArg String.data h
    rw [signed_message_eq, signed_message_eq] at hd
    simp only [stringDataAppend, List.append_assoc] at hd
    repeat rw [List.append_cancel_left_eq] at hd
    rw [List.append_cancel_right_eq] at hd
    exact stringDataInj _ _ hd
  · intro m p b ts n rid tok1 tok2 hne h
    apply hne
    have hd := congrArg String.data h
    rw [signed_message_eq, signed_message_eq] at hd
    simp only [stringDataAppend, List.append_assoc] at hd
    repeat rw [List.append_cancel_left_eq] at hd
    exact stringDataInj _ _ hd

set_option maxRecDepth 10000 in
/-- Witness for `create_signature_matches_spec`, discharging each hypothesis
at concrete field values (the body hypothesis by evaluating both SHA-256
digests). -/
theorem create_signature_matches_spec_witness :
    signed_message "POST" "/a" "" 0 "n" "r" "t" ≠
        signed_message "GET" "/a" "" 0 "n" "r" "t" ∧
    signed_message "POST" "/a" "" 0 "n" "r" "t" ≠
        signed_message "POST" "/b" "" 0 "n" "r" "t" ∧
    signed_message "POST" "/a" "x" 0 "n" "r" "t" ≠
        signed_message "POST" "/a" "y" 0 "n" "r" "t" ∧
    signed_message "POST" "/a" "" 1 "n" "r" "t" ≠
        signed_message "POST" "/a" "" 2 "n" "r" "t" ∧
    signed_message "POST" "/a" "" 0 "n1" "r" "t" ≠
        signed_message "POST" "/a" "" 0 "n2" "r" "t" ∧
    signed_message "POST" "/a" "" 0 "n" "r1" "t" ≠
        signed_message "POST" "/a" "" 0 "n" "r2" "t" ∧
    signed_message "POST" "/a" "" 0 "n" "r" "t1" ≠
        signed_message "POST" "/a" "" 0 "n" "r" "t2" :=
  ⟨create_signature_matches_spec.2.2.1 "POST" "GET" "/a" "" 0 "n" "r" "t" (by decide),
   create_signature_matches_spec.2.2.2.1 "POST" "/a" "/b" "" 0 "n" "r" "t" (by decide),
   create_signature_matches_spec.2.2.2.2.1 "POST" "/a" "x" "y" 0 "n" "r" "t" (by decide),
   create_signature_matches_spec.2.2.2.2.2.1 "POST" "/a" "" 1 2 "n" "r" "t" (by decide),
   create_signature_matches_spec.2.2.2.2.2.2.1 "POST" "/a" "" 0 "n1" "n2" "r" "t" (by decide),
   create_signature_matches_spec.2.2.2.2.2.2.2.1 "POST" "/a" "" 0 "n" "r1" "r2" "t" (by decide),
   create_signature_matches_spec.2.2.2.2.2.2.2.2 "POST" "/a" "" 0 "n" "r" "t1" "t2" (by decide)⟩

/-- C6 counterexample: the nonce is `uuid.uuid4().hex[:16]` — the first 16
hex characters of the 32-character uuid4 hex string — so it is 16 hex
characters, not at least 32, and encodes 8 bytes, not at least 16. -/
theorem make_nonce_is_sixteen_chars :
    (make_nonce "0123456789abcdef0123456789abcdef").length = 16 ∧
    ¬ 32 ≤ (make_nonce "0123456789abcdef0123456789abcdef").length := by
  decide

/-- C6 (amended): for every signed request, the nonce is the first 16
characters of a fresh `uuid4().hex` — 16 hexadecimal characters, i.e. 64
bits (8 bytes) of the uuid's randomness, half the 32 hex characters the
claim requires; every character of the nonce comes from the uuid hex
string. -/
theorem make_nonce_sixteen_hex (u : String) (h : u.length = 32) :
    (make_nonce u).length = 16 ∧ ∀ c ∈ (make_nonce u).data, c ∈ u.data := by
  constructor
  · have hd : u.data.length = 32 := h
    simp [make_nonce, String.length, List.length_take, hd]
  · intro c hc
    exact List.take_subset 16 u.data hc

/-- Witness for `make_nonce_sixteen_hex` at a concrete uuid hex string. -/
theorem make_nonce_sixteen_hex_witness :
    (make_nonce "00112233445566778899aabbccddeeff").length = 16 :=
  (make_nonce_sixteen_hex "00112233445566778899aabbccddeeff" (by decide)).1

/-- C7 counterexample: `poll_commands` is claimed never to throw for any
response body, but a 2xx response whose JSON body is a list containing a
record without an `id` key raises `KeyError`, and a 2xx response whose body
is not valid JSON raises `ValueError`; neither is an `httpx.HTTPError`, so
the `except` clause does not catch them. -/
theorem poll_commands_raises_on_malformed_body :
    poll_commands (.response 200 (some (.arr [.obj []]))) = .error .keyError ∧
    poll_commands (.response 200 none) = .error .valueError := by
  exact ⟨rfl, rfl⟩

/-- C7 (amended): `poll_commands` returns the empty list — rather than
raising — on every transport-level error and on every non-2xx response
(both surface as `httpx.HTTPError`, which the `except` clause catches); a
2xx response with a malformed body can still raise
(`poll_commands_raises_on_malformed_body`). -/
theorem poll_commands_empty_on_http_error :
    poll_commands .transportError = .ok [] ∧
    (∀ (st : Nat) (body : Option Json), ¬ (200 ≤ st ∧ st ≤ 299) →
        poll_commands (.response st body) = .ok []) := by
  constructor
  · rfl
  · intro st body h
    simp [poll_commands, is_success, h]

/-- Witness for `poll_commands_empty_on_http_error` at a 404 response with a
malformed body. -/
theorem poll_commands_empty_on_http_error_witness :
    poll_commands (.response 404 (some (.arr [.obj []]))) = .ok [] :=
  poll_commands_empty_on_http_error.2 404 (some (.arr [.obj []])) (by decide)

/-- C10: `send_heartbeat` never propagates an HTTP transport or status error
to its caller — on any `httpx.HTTPError` from the POST it logs and returns
normally — unlike `send_event`, `ack_command` and `register_client`, which
re-raise the error after logging it. -/
theorem send_heartbeat_never_raises :
    (∀ o : HttpOutcome, send_heartbeat o = .ok ()) ∧
    (∀ (o : HttpOutcome) (e : PyErr) (sequence : Nat),
        request_raise_status o = .error e →
        (send_event o sequence).1 = .error e ∧ ack_command o = .error e ∧
          register_client o = .error e) := by
  constructor
  · intro o
    cases o with
    | transportError => rfl
    | response st body =>
      simp only [send_heartbeat, request_raise_status]
      split_ifs with h
      · rfl
      · rfl
  · intro o e sequence h
    refine ⟨?_, ?_, ?_⟩ <;> simp [send_event, ack_command, register_client, h]

/-- Witness for `send_heartbeat_never_raises` at a transport error. -/
theorem send_heartbeat_never_raises_witness :
    send_heartbeat .transportError = .ok () ∧
    (send_event .transportError 0).1 = .error .httpTransport :=
  ⟨send_heartbeat_never_raises.1 .transportError,
   (send_heartbeat_never_raises.2 .transportError .httpTransport 0 rfl).1⟩
